import Mathlib

/-!
Shallow embedding of the ShiftSavvy payroll engine (`src/app.py`) and proofs
about its claimed behaviour.  Money and hour quantities are modelled as
rationals (the Python source uses floats, but every claim under study is about
the exact arithmetic the formulas denote); enumerated string fields
(`ot_rule`, `diff_type`) are modelled as `String` so that the fallback
behaviour on unrecognized values is captured faithfully.  Calendar dates are
modelled as integer day numbers with the convention that day 0 is a Monday
(so `weekday d = d mod 7` with Monday = 0, matching `pandas.Timestamp.weekday`).
-/

namespace ShiftSavvy

/-- A row of the `jobs` table, restricted to the fields the payroll
computation reads (`app.py` lines 181-193 and 231-254). -/
structure Job where
  base_rate : ℚ
  ot_rule : String
  ot_multiplier : ℚ
  diff_type : String
  diff_value : ℚ

/-- A row of the `shifts` table, restricted to the fields the payroll
computation reads.  `shift_date` is a day number (day 0 = a Monday). -/
structure ShiftRec where
  job_id : Nat
  shift_date : Int
  hours : ℚ

/-- Embeds `calc_differential` (`app.py` lines 170-174): `percent` yields
`base_rate * (diff_value / 100.0)`, any other type falls into the `else`
branch and yields `diff_value` unchanged. -/
def calc_differential (base_rate : ℚ) (diff_type : String) (diff_value : ℚ) : ℚ :=
  if diff_type = "percent" then base_rate * (diff_value / 100)
  else diff_value

/-- Embeds `calc_shift_earnings` (`app.py` lines 176-193): returns the triple
`(earnings, regular_hours, ot_hours)`.  The `daily_8` branch splits at 8
hours; every other overtime rule takes the `else` branch, which treats all
hours as regular (the provisional value for `weekly_40`). -/
def calc_shift_earnings (hours : ℚ) (job : Job) : ℚ × ℚ × ℚ :=
  let diff := calc_differential job.base_rate job.diff_type job.diff_value
  let rate_with_diff := job.base_rate + diff
  if job.ot_rule = "daily_8" then
    let regular_hours := min 8 hours
    let ot_hours := max 0 (hours - 8)
    (regular_hours * rate_with_diff + ot_hours * (rate_with_diff * job.ot_multiplier),
     regular_hours, ot_hours)
  else
    (hours * rate_with_diff, hours, 0)

/-- Embeds the inner budget loop of the weekly overtime adjustment
(`app.py` lines 245-253): walks the group's rows in list order carrying the
`reg_left` budget; each row pays `reg * rate + ot * (rate * ot_mult)` with
`reg = min(reg_left, h)` and `ot = max(0.0, h - reg)`. -/
def weeklyAllocRows (rate ot_mult : ℚ) : ℚ → List (Int × ℚ) → List ℚ
  | _, [] => []
  | reg_left, s :: rest =>
    let h := s.2
    let reg := min reg_left h
    let ot := max 0 (h - reg)
    (reg * rate + ot * (rate * ot_mult)) :: weeklyAllocRows rate ot_mult (reg_left - reg) rest

/-- Embeds one iteration of the per-(job, ISO year, ISO week) adjustment loop
of `compute_financials` (`app.py` lines 231-254) on a single group `g`
of that job's shifts, listed as `(shift_date, hours)` pairs in frame order
(ascending `shift_date`, from the `ORDER BY shift_date ASC` at line 197):
non-`weekly_40` jobs keep their initial earnings; `weekly_40` groups totalling
at most 40 hours are paid `hours * rate_with_diff` per shift; larger groups go
through the budget loop. -/
def adjustGroupForJob (job : Job) (g : List (Int × ℚ)) : List ℚ :=
  if job.ot_rule ≠ "weekly_40" then
    g.map (fun s => (calc_shift_earnings s.2 job).1)
  else
    let rate_with_diff := job.base_rate + calc_differential job.base_rate job.diff_type job.diff_value
    if (g.map Prod.snd).sum ≤ 40 then g.map (fun s => s.2 * rate_with_diff)
    else weeklyAllocRows rate_with_diff job.ot_multiplier 40 g

/-- The per-shift output columns of `compute_financials` for one group:
`earnings` (line 255, from the adjustment loop) and the hour columns
`daily_regular_hours` / `daily_ot_hours` (lines 224-225, taken from
`calc_shift_earnings` and never reassigned afterwards). -/
structure GroupOut where
  earnings : List ℚ
  daily_regular_hours : List ℚ
  daily_ot_hours : List ℚ

/-- The per-shift columns produced by `compute_financials` (`app.py` lines
209-255) for a frame consisting of a SINGLE (job, week) group `g`: the hour
columns come from `calc_shift_earnings` (lines 224-225, built by `iterrows`
in frame order) and the `earnings` column from the weekly adjustment (line
255).  For such a one-group frame the groupby iteration order coincides with
frame order, so the positional assignment at line 255 aligns and the final
earnings column is exactly the group's adjusted list; the general multi-group
column, where that positional assignment misaligns, is `earningsColumn`
below. -/
def groupRows (job : Job) (g : List (Int × ℚ)) : GroupOut :=
  { earnings := adjustGroupForJob job g
    daily_regular_hours := g.map (fun s => (calc_shift_earnings s.2 job).2.1)
    daily_ot_hours := g.map (fun s => (calc_shift_earnings s.2 job).2.2) }

/-- Embeds `ts.to_period('W-MON').start_time` (`app.py` lines 264, 266, 273).
A pandas weekly period of frequency `W-MON` is a week that ENDS on Monday, so
its `start_time` is the Tuesday at most 6 days before `d`.  With day 0 a
Monday (weekday `d mod 7`, Monday = 0), the enclosing period of `d` starts at
`d - ((d + 6) mod 7)`. -/
def week_start (d : Int) : Int := d - (d + 6) % 7

/-- Comparator following the claim's words (not the source): the Monday-start
week containing `d` starts at `d - (d mod 7)`. -/
def mondayWeekStart (d : Int) : Int := d - d % 7

/-- Association-list lookup with pandas' fill value 0 for a missing key: the
summation `series.loc[series["week_start"] == k].sum()` over a
unique-keyed weekly series (`app.py` lines 274-275), and also the `fillna(0.0)`
of the outer merge (line 279). -/
def lookupOr0 : List (Int × ℚ) → Int → ℚ
  | [], _ => 0
  | p :: rest, k => if p.1 = k then p.2 else lookupOr0 rest k

/-- Embeds `pd.merge(weekly_earnings, weekly_expenses, how="outer",
on="week_start").fillna(0.0)` (`app.py` line 279) for unique-keyed series:
every left row keeps its earnings and picks up the matching expenses (0 if
none), and every right row whose key is absent on the left follows with
earnings 0.  Rows are `(week_start, earnings, amount)`. -/
def outerMerge (we wx : List (Int × ℚ)) : List (Int × ℚ × ℚ) :=
  we.map (fun p => (p.1, p.2, lookupOr0 wx p.1)) ++
    (wx.filter (fun q => decide (q.1 ∉ we.map Prod.fst))).map (fun q => (q.1, 0, q.2))

/-- Embeds the annual projection (`app.py` lines 278-284): mean of
`earnings - amount` over the outer-merged weekly rows (0 when there are no
rows), times 52. -/
def projected_annual_net (we wx : List (Int × ℚ)) : ℚ :=
  let all_weeks := outerMerge we wx
  let avg_weekly_net : ℚ :=
    if all_weeks.length = 0 then 0
    else (all_weeks.map (fun r => r.2.1 - r.2.2)).sum / (all_weeks.length : ℚ)
  avg_weekly_net * 52

/-- Comparator following the claim's words (not the source): the list of
weeks with any activity, each week present in either weekly series. -/
def activeWeeks (we wx : List (Int × ℚ)) : List Int :=
  we.map Prod.fst ++
    ((wx.filter (fun q => decide (q.1 ∉ we.map Prod.fst))).map Prod.fst)

/-- Comparator following the claim's words (not the source): the arithmetic
mean of (weekly earnings - weekly expenses) over the weeks with activity,
multiplied by 52; 0 when there are none. -/
def spec_projected_annual_net (we wx : List (Int × ℚ)) : ℚ :=
  if activeWeeks we wx = [] then 0
  else ((activeWeeks we wx).map (fun k => lookupOr0 we k - lookupOr0 wx k)).sum
        / ((activeWeeks we wx).length : ℚ) * 52

/-- Embeds the current-week earnings lookup (`app.py` lines 272-274) with the
value of the internal `date.today()` call made explicit as the `today`
argument: the code itself reads the system clock at line 272 instead of
taking this value as a parameter. -/
def earnings_this_week (we : List (Int × ℚ)) (today : Int) : ℚ :=
  lookupOr0 we (week_start today)

/-- First-match association lookup of a job row by id, as the unique-key merge
key lookup of `jobs.reset_index()` (`app.py` line 207). -/
def jobLookup : List (Nat × Job) → Nat → Option Job
  | [], _ => none
  | p :: rest, k => if p.1 = k then some p.2 else jobLookup rest k

/-- Embeds `shifts.merge(jobs.reset_index(), left_on="job_id", right_on="id")`
(`app.py` line 207).  The pandas default `how="inner"` keeps a shift row only
when its `job_id` matches a job row; a shift with a dangling `job_id` simply
produces no output row, and no exception is raised. -/
def attachJobs (jobs : List (Nat × Job)) (shifts : List ShiftRec) :
    List (ShiftRec × Job) :=
  shifts.filterMap (fun s => (jobLookup jobs s.job_id).map (fun j => (s, j)))

/-- The grouping key of the weekly adjustment loop (`app.py` lines 228-231):
`(job_id, ISO year, ISO week)`.  With day 0 a Monday, ISO weeks are exactly
the classes of `⌊d / 7⌋` (floor division), and the lexicographic order on
`(iso_year, iso_week)` is the chronological order of weeks, i.e. the order of
`⌊d / 7⌋`; so `(job_id, ⌊d / 7⌋)` models the key bijectively and
order-isomorphically. -/
def groupKey (s : ShiftRec) : Nat × Int := (s.job_id, Int.fdiv s.shift_date 7)

/-- Insertion step for sorting group keys in ascending lexicographic
`(job_id, week)` order, the order in which `groupby(sort=True)` emits its
groups. -/
def insertKey (k : Nat × Int) : List (Nat × Int) → List (Nat × Int)
  | [] => [k]
  | x :: xs =>
    if k.1 < x.1 ∨ (k.1 = x.1 ∧ k.2 ≤ x.2) then k :: x :: xs
    else x :: insertKey k xs

/-- Sorts group keys in ascending lexicographic order, as
`shifts.groupby(["job_id", "year", "week"])` (default `sort=True`) iterates
them (`app.py` line 231). -/
def sortKeys (ks : List (Nat × Int)) : List (Nat × Int) := ks.foldr insertKey []

/-- Embeds the construction of the `adjusted_earnings` list and its write-back
(`app.py` lines 207 and 230-255): the merged frame is in ascending date order
(line 197; the inner merge preserves left order), the groupby loop walks the
distinct `(job_id, year, week)` keys in sorted order appending each group's
adjusted pays (group rows kept in frame order), and
`shifts["earnings"] = adjusted_earnings` at line 255 assigns that plain list
POSITIONALLY onto the date-ordered frame.  The final earnings column, read in
frame order, is therefore this groupby-ordered concatenation: row `i` of the
frame receives entry `i` of the concatenation, which belongs to row `i`'s own
group only when the two orders agree. -/
def earningsColumn (jobs : List (Nat × Job)) (shifts : List ShiftRec) : List ℚ :=
  let merged := attachJobs jobs shifts
  (sortKeys ((merged.map (fun p => groupKey p.1)).dedup)).flatMap (fun k =>
    match jobLookup jobs k.1 with
    | some job =>
        adjustGroupForJob job
          ((merged.filter (fun p => decide (groupKey p.1 = k))).map
            (fun p => (p.1.shift_date, p.1.hours)))
    | none => [])

/-- Fixture: the `daily_8` job of claim C2's end-to-end example (base rate 38,
multiplier 1.5, `percent` differential of value 0, i.e. no differential). -/
def jbDaily : Job := ⟨38, "daily_8", 3 / 2, "percent", 0⟩

/-- Fixture: a `weekly_40` job with rate 10 and no differential. -/
def jbW : Job := ⟨10, "weekly_40", 3 / 2, "fixed", 0⟩

/-- Fixture: a one-week group of two shifts of 30 and 20 hours (total 50). -/
def gW : List (Int × ℚ) := [(0, 30), (1, 20)]

/-- Fixture: a job table holding only job id 1. -/
def jobsEx : List (Nat × Job) := [(1, jbDaily)]

/-- Fixture: two 10-hour shifts, one referencing job 1 and one referencing the
absent job 2. -/
def shiftsEx : List ShiftRec := [⟨1, 0, 10⟩, ⟨2, 0, 10⟩]

/-- Fixture: a job whose overtime rule and differential type are outside the
two recognized enumerations. -/
def jbOdd : Job := ⟨20, "monthly_160", 3 / 2, "night", 5⟩

/-- Fixture: a second `weekly_40` job with rate 20 and no differential. -/
def jb2 : Job := ⟨20, "weekly_40", 3 / 2, "fixed", 0⟩

/-- Fixture: a job table holding job 1 (`jbW`, rate 10) and job 2 (`jb2`,
rate 20), both `weekly_40`. -/
def jobs2Ex : List (Nat × Job) := [(1, jbW), (2, jb2)]

/-- Fixture: two 10-hour shifts of the same ISO week in ascending date order,
job 2's shift on day 0 before job 1's on day 1, so that the date order of the
frame differs from the sorted `(job_id, year, week)` group order. -/
def shifts2Ex : List ShiftRec := [⟨2, 0, 10⟩, ⟨1, 1, 10⟩]

theorem calc_shift_earnings_of_ne (job : Job) (h : ℚ) (hne : job.ot_rule ≠ "daily_8") :
    calc_shift_earnings h job
      = (h * (job.base_rate + calc_differential job.base_rate job.diff_type job.diff_value),
         h, 0) := by
  simp [calc_shift_earnings, hne]

theorem lookupOr0_eq_of_mem {we : List (Int × ℚ)} {k : Int} {v : ℚ}
    (hnd : (we.map Prod.fst).Nodup) (hmem : (k, v) ∈ we) : lookupOr0 we k = v := by
  induction we with
  | nil => simp at hmem
  | cons p rest ih =>
    simp only [List.map_cons, List.nodup_cons] at hnd
    rcases List.mem_cons.mp hmem with h | h
    · rw [← h]
      simp [lookupOr0]
    · have hne : p.1 ≠ k := by
        intro he
        exact hnd.1 (he ▸ List.mem_map.mpr ⟨(k, v), h, rfl⟩)
      show (if p.1 = k then p.2 else lookupOr0 rest k) = v
      rw [if_neg hne]
      exact ih hnd.2 h

theorem lookupOr0_eq_zero_of_not_mem {we : List (Int × ℚ)} {k : Int}
    (h : k ∉ we.map Prod.fst) : lookupOr0 we k = 0 := by
  induction we with
  | nil => rfl
  | cons p rest ih =>
    simp only [List.map_cons, List.mem_cons, not_or] at h
    show (if p.1 = k then p.2 else lookupOr0 rest k) = 0
    rw [if_neg (fun he => h.1 he.symm)]
    exact ih h.2

/-- Claim C1 (code bug): the weekly budget loop computes each group's
allocation correctly (here both `weekly_40` groups total 10 h ≤ 40, so the
claim says each shift's final earnings is `hours * rate`: 200 for job 2's
shift at rate 20 and 100 for job 1's at rate 10, and the per-group adjusted
lists are indeed [100] and [200]), but the write-back
`shifts["earnings"] = adjusted_earnings` at line 255 assigns the
groupby-sorted concatenation positionally onto the date-ordered frame: with
job 2's shift on day 0 preceding job 1's on day 1, the final earnings column
in frame order reads [100, 200] instead of the claimed [200, 100] — each
shift ends up with the other shift's pay, so the first shift's final earnings
is 100, not its own `hours * rate = 200`. -/
theorem final_earnings_misaligned_across_groups :
    (attachJobs jobs2Ex shifts2Ex).map (fun p => p.1.job_id) = [2, 1] ∧
    adjustGroupForJob jbW [(1, 10)] = [100] ∧
    adjustGroupForJob jb2 [(0, 10)] = [200] ∧
    earningsColumn jobs2Ex shifts2Ex = [100, 200] ∧
    (attachJobs jobs2Ex shifts2Ex).map
        (fun p => p.1.hours * (p.2.base_rate
          + calc_differential p.2.base_rate p.2.diff_type p.2.diff_value)) = [200, 100] ∧
    ((100 : ℚ) ≠ 200) := by
  have hA : adjustGroupForJob jbW [(1, 10)] = [100] := by
    norm_num [adjustGroupForJob, calc_differential, jbW]
  have hB : adjustGroupForJob jb2 [(0, 10)] = [200] := by
    norm_num [adjustGroupForJob, calc_differential, jb2]
  have hkeys : sortKeys (((attachJobs jobs2Ex shifts2Ex).map
      (fun p => groupKey p.1)).dedup) = [(1, 0), (2, 0)] := by decide
  have hmerged : attachJobs jobs2Ex shifts2Ex = [(⟨2, 0, 10⟩, jb2), (⟨1, 1, 10⟩, jbW)] := by
    norm_num [attachJobs, jobLookup, jobs2Ex, shifts2Ex, List.filterMap]
  refine ⟨by decide, hA, hB, ?_, ?_, by norm_num⟩
  · rw [earningsColumn, hkeys, hmerged]
    have hf0 : Int.fdiv 0 7 = 0 := by decide
    have hf1 : Int.fdiv 1 7 = 0 := by decide
    simp [jobLookup, jobs2Ex, groupKey, hf0, hf1, hA, hB]
  · rw [hmerged]
    norm_num [calc_differential, jb2, jbW]

/-- Claim C2: for a `daily_8` job and a single shift of `h ≥ 0` hours with
differential-adjusted rate `r` and multiplier `m`: if `h ≤ 8` the result is
`(h*r, h, 0)`; if `h > 8` it is `(8*r + (h-8)*r*m, 8, h-8)`; and in
particular base rate 38, no differential, `m = 1.5`, `h = 10` earns 418. -/
theorem daily8_single_shift_spec (job : Job) (h : ℚ)
    (hrule : job.ot_rule = "daily_8") (hh : 0 ≤ h) :
    ((h ≤ 8 → calc_shift_earnings h job
        = (h * (job.base_rate + calc_differential job.base_rate job.diff_type job.diff_value),
           h, 0)) ∧
     (8 < h → calc_shift_earnings h job
        = (8 * (job.base_rate + calc_differential job.base_rate job.diff_type job.diff_value)
            + (h - 8) * ((job.base_rate + calc_differential job.base_rate job.diff_type job.diff_value)
                * job.ot_multiplier),
           8, h - 8))) ∧
    calc_shift_earnings 10 jbDaily = (418, 8, 2) := by
  refine ⟨⟨?_, ?_⟩, ?_⟩
  · intro hle
    have h1 : min 8 h = h := min_eq_right hle
    have h2 : max 0 (h - 8) = 0 := max_eq_left (by linarith)
    simp [calc_shift_earnings, hrule, h1, h2]
  · intro hgt
    have h1 : min 8 h = 8 := min_eq_left (le_of_lt hgt)
    have h2 : max 0 (h - 8) = h - 8 := max_eq_right (by linarith)
    simp [calc_shift_earnings, hrule, h1, h2]
  · norm_num [calc_shift_earnings, calc_differential, jbDaily, min_def, max_def]

/-- Witness for C2: `daily8_single_shift_spec` applied to the 10-hour shift of
the example job (base rate 38, no differential, multiplier 1.5). -/
theorem daily8_single_shift_witness :
    jbDaily.ot_rule = "daily_8" ∧ (0 : ℚ) ≤ 10 ∧
    calc_shift_earnings 10 jbDaily = (418, 8, 2) :=
  ⟨rfl, by norm_num, (daily8_single_shift_spec jbDaily 10 rfl (by norm_num)).2⟩

/-- Claim C3 (code bug): for the `weekly_40` job `jbW` with one week's
shifts of 30 h and 20 h (total 50 > 40) — a single-group frame, where the
positional write-back is aligned — the final per-shift output still does NOT
contain corrected hour columns: the regular hours do not sum to 40 and the
overtime hours do not sum to `T - 40` (they remain the provisional 30, 20 and
0, 0 set at lines 224-225, which the adjustment loop never reassigns). -/
theorem weekly40_hours_columns_not_overwritten :
    40 < (gW.map Prod.snd).sum ∧
    ¬ ((groupRows jbW gW).daily_regular_hours.sum = 40 ∧
       (groupRows jbW gW).daily_ot_hours.sum = (gW.map Prod.snd).sum - 40) := by
  constructor
  · norm_num [gW]
  · intro hcl
    have hreg : (groupRows jbW gW).daily_regular_hours = [30, 20] := by
      norm_num [groupRows, calc_shift_earnings, calc_differential, jbW, gW]
      decide
    rw [hreg] at hcl
    norm_num at hcl

/-- Claim C4 (code bug): the code's week bucket (`to_period('W-MON')`) is the
week ENDING on Monday.  Day 0, a Monday, is assigned week start day -6 (a
Tuesday), not its own Monday (day 0) as the claim states; in general every
date's assigned week start falls on a Tuesday (`week_start d mod 7 = 1`) at
most 6 days earlier. -/
theorem week_bucket_tuesday_start :
    week_start 0 = -6 ∧ mondayWeekStart 0 = 0 ∧ week_start 0 ≠ mondayWeekStart 0 ∧
    ∀ d : Int, week_start d % 7 = 1 ∧ week_start d ≤ d ∧ d < week_start d + 7 := by
  refine ⟨by decide, by decide, by decide, ?_⟩
  intro d
  unfold week_start
  omega

/-- Claim C5: the projected annual net equals the arithmetic mean of weekly
earnings minus weekly expenses over exactly the weeks present in the outer
merge of the two series (each week with any activity appearing once, missing
values filled with 0), multiplied by 52; with no weeks of activity it is 0. -/
theorem annual_projection_spec (we wx : List (Int × ℚ))
    (h1 : (we.map Prod.fst).Nodup) (h2 : (wx.map Prod.fst).Nodup) :
    projected_annual_net we wx = spec_projected_annual_net we wx ∧
    (∀ k : Int, k ∈ activeWeeks we wx ↔ (k ∈ we.map Prod.fst ∨ k ∈ wx.map Prod.fst)) ∧
    (activeWeeks we wx).Nodup ∧
    projected_annual_net ([] : List (Int × ℚ)) ([] : List (Int × ℚ)) = 0 := by
  have hmapeq : (outerMerge we wx).map (fun r => r.2.1 - r.2.2)
      = (activeWeeks we wx).map (fun k => lookupOr0 we k - lookupOr0 wx k) := by
    simp only [outerMerge, activeWeeks, List.map_append, List.map_map]
    congr 1
    · apply List.map_congr_left
      intro p hp
      have hv : lookupOr0 we p.1 = p.2 :=
        lookupOr0_eq_of_mem h1 (by rw [Prod.mk.eta]; exact hp)
      simp [Function.comp, hv]
    · apply List.map_congr_left
      intro q hq
      rw [List.mem_filter] at hq
      have hno : q.1 ∉ we.map Prod.fst := of_decide_eq_true hq.2
      have hz : lookupOr0 we q.1 = 0 := lookupOr0_eq_zero_of_not_mem hno
      have hv : lookupOr0 wx q.1 = q.2 :=
        lookupOr0_eq_of_mem h2 (by rw [Prod.mk.eta]; exact hq.1)
      simp [Function.comp, hz, hv]
  have hlen : (outerMerge we wx).length = (activeWeeks we wx).length := by
    simp [outerMerge, activeWeeks]
  refine ⟨?_, ?_, ?_, by norm_num [projected_annual_net, outerMerge]⟩
  · by_cases hnil : activeWeeks we wx = []
    · have hlz : (outerMerge we wx).length = 0 := by
        rw [hlen, hnil]
        rfl
      simp [projected_annual_net, spec_projected_annual_net, hnil, hlz]
    · have hlnz : ¬ (outerMerge we wx).length = 0 := by
        rw [hlen]
        exact fun hc => hnil (List.length_eq_zero.mp hc)
      simp only [projected_annual_net, spec_projected_annual_net, if_neg hnil, if_neg hlnz]
      rw [hmapeq, hlen]
  · intro k
    simp only [activeWeeks, List.mem_append]
    constructor
    · rintro (h | h)
      · exact Or.inl h
      · obtain ⟨q, hq, rfl⟩ := List.mem_map.mp h
        exact Or.inr (List.mem_map.mpr ⟨q, (List.mem_filter.mp hq).1, rfl⟩)
    · rintro (h | h)
      · exact Or.inl h
      · by_cases hwe : k ∈ we.map Prod.fst
        · exact Or.inl hwe
        · obtain ⟨q, hq, rfl⟩ := List.mem_map.mp h
          exact Or.inr (List.mem_map.mpr
            ⟨q, List.mem_filter.mpr ⟨hq, decide_eq_true hwe⟩, rfl⟩)
  · rw [activeWeeks, List.nodup_append]
    refine ⟨h1, ?_, ?_⟩
    · exact h2.sublist ((wx.filter_sublist).map Prod.fst)
    · intro a ha hb
      obtain ⟨q, hq, rfl⟩ := List.mem_map.mp hb
      exact absurd ha (of_decide_eq_true (List.mem_filter.mp hq).2)

/-- Witness for C5: `annual_projection_spec` at one earnings week and one
disjoint expense week. -/
theorem annual_projection_witness :
    (([((1 : Int), (100 : ℚ))].map Prod.fst).Nodup) ∧
    (([((8 : Int), (10 : ℚ))].map Prod.fst).Nodup) ∧
    projected_annual_net [(1, 100)] [(8, 10)]
      = spec_projected_annual_net [(1, 100)] [(8, 10)] :=
  ⟨by simp, by simp,
   (annual_projection_spec [(1, 100)] [(8, 10)] (by simp) (by simp)).1⟩

/-- Claim C6 (code bug): the current-week figures depend on the value of the
`date.today()` call made inside `compute_financials`: with the same weekly
earnings series, reference day 1 and reference day 8 give different
current-week earnings, so an invocation's output is not a function of the
stored records alone. -/
theorem current_week_depends_on_reference_date :
    earnings_this_week [(1, 100)] 1 = 100 ∧
    earnings_this_week [(1, 100)] 8 = 0 ∧
    earnings_this_week [(1, 100)] 1 ≠ earnings_this_week [(1, 100)] 8 := by
  refine ⟨?_, ?_, ?_⟩ <;> norm_num [earnings_this_week, week_start, lookupOr0]

/-- Claim C7 (code bug): with a job table holding only job 1 and two 10-hour
shifts, one referencing job 1 and one referencing the absent job 2, the
shift-job merge keeps only the first shift: the dangling shift is silently
dropped (10 of the 20 worked hours disappear from the totals) and no error is
produced. -/
theorem dangling_shift_silently_dropped :
    (shiftsEx.map (fun s => s.hours)).sum = 20 ∧
    (attachJobs jobsEx shiftsEx).map (fun p => p.1.job_id) = [1] ∧
    ((attachJobs jobsEx shiftsEx).map (fun p => p.1.hours)).sum = 10 := by
  refine ⟨?_, ?_, ?_⟩ <;>
    norm_num [attachJobs, jobLookup, jobsEx, shiftsEx, List.filterMap]

/-- Claim C8: the differential is `base_rate * value / 100` for `percent` and
the raw `value` (independent of the base rate) for `fixed`; the differential
is added to the base rate before hours are priced, so for a `daily_8` shift
of more than 8 hours the pay exceeds the 8-hour pay by exactly
`overtime hours * (base_rate + differential) * multiplier`. -/
theorem differential_and_overtime_pricing (b v h : ℚ) (job : Job)
    (hrule : job.ot_rule = "daily_8") (hgt : 8 < h) :
    calc_differential b "percent" v = b * (v / 100) ∧
    calc_differential b "fixed" v = v ∧
    (∀ b1 b2 : ℚ, calc_differential b1 "fixed" v = calc_differential b2 "fixed" v) ∧
    (calc_shift_earnings h job).1
      = (calc_shift_earnings 8 job).1
        + (h - 8) * ((job.base_rate + calc_differential job.base_rate job.diff_type job.diff_value)
            * job.ot_multiplier) := by
  refine ⟨by simp [calc_differential], ?_, ?_, ?_⟩
  · unfold calc_differential
    rw [if_neg (by decide : ¬ ("fixed" : String) = "percent")]
  · intro b1 b2
    unfold calc_differential
    rw [if_neg (by decide : ¬ ("fixed" : String) = "percent"),
        if_neg (by decide : ¬ ("fixed" : String) = "percent")]
  · have h1 : min 8 h = 8 := min_eq_left (le_of_lt hgt)
    have h2 : max 0 (h - 8) = h - 8 := max_eq_right (by linarith)
    have h3 : min (8 : ℚ) 8 = 8 := min_self 8
    have h4 : max (0 : ℚ) (8 - 8) = 0 := by norm_num
    simp [calc_shift_earnings, hrule, h1, h2, h3, h4]

/-- Witness for C8 at base rate 38, percent value 10 and the 10-hour shift of
`jbDaily`. -/
theorem differential_and_overtime_pricing_witness :
    jbDaily.ot_rule = "daily_8" ∧ (8 : ℚ) < 10 ∧
    calc_differential 38 "percent" 10 = 38 * (10 / 100) ∧
    (calc_shift_earnings 10 jbDaily).1
      = (calc_shift_earnings 8 jbDaily).1
        + (10 - 8) * ((jbDaily.base_rate
            + calc_differential jbDaily.base_rate jbDaily.diff_type jbDaily.diff_value)
            * jbDaily.ot_multiplier) :=
  ⟨rfl, by norm_num,
   (differential_and_overtime_pricing 38 10 10 jbDaily rfl (by norm_num)).1,
   (differential_and_overtime_pricing 38 10 10 jbDaily rfl (by norm_num)).2.2.2⟩

/-- Claim C9: for every job configuration and every shift, the hour split of
`calc_shift_earnings` satisfies `regular + overtime = hours`, and both
components are nonnegative whenever `hours ≥ 0`, in both the `daily_8` branch
and the provisional weekly branch. -/
theorem hours_split_conservation (job : Job) (h : ℚ) :
    (calc_shift_earnings h job).2.1 + (calc_shift_earnings h job).2.2 = h ∧
    (0 ≤ h → 0 ≤ (calc_shift_earnings h job).2.1 ∧ 0 ≤ (calc_shift_earnings h job).2.2) := by
  by_cases hr : job.ot_rule = "daily_8"
  · have he : calc_shift_earnings h job
        = (min 8 h * (job.base_rate + calc_differential job.base_rate job.diff_type job.diff_value)
            + max 0 (h - 8) * ((job.base_rate + calc_differential job.base_rate job.diff_type job.diff_value) * job.ot_multiplier),
           min 8 h, max 0 (h - 8)) := by
      simp [calc_shift_earnings, hr]
    rw [he]
    constructor
    · show min 8 h + max 0 (h - 8) = h
      rcases le_total h 8 with hc | hc
      · rw [min_eq_right hc, max_eq_left (by linarith)]; ring
      · rw [min_eq_left hc, max_eq_right (by linarith)]; ring
    · intro hh
      exact ⟨le_min (by norm_num) hh, le_max_left 0 _⟩
  · rw [calc_shift_earnings_of_ne job h hr]
    exact ⟨by ring, fun hh => ⟨hh, le_refl 0⟩⟩

/-- Witness for C9 at a 10-hour shift of the `daily_8` example job. -/
theorem hours_split_conservation_witness :
    (calc_shift_earnings 10 jbDaily).2.1 + (calc_shift_earnings 10 jbDaily).2.2 = 10 ∧
    ((0 : ℚ) ≤ 10 ∧ 0 ≤ (calc_shift_earnings 10 jbDaily).2.1
      ∧ 0 ≤ (calc_shift_earnings 10 jbDaily).2.2) :=
  ⟨(hours_split_conservation jbDaily 10).1,
   by norm_num, ((hours_split_conservation jbDaily 10).2 (by norm_num)).1,
   ((hours_split_conservation jbDaily 10).2 (by norm_num)).2⟩

/-- Claim C10: any differential type other than `percent` falls into the
`fixed` branch and returns the raw value, and any overtime rule other than
`daily_8` falls into the provisional weekly branch (all hours regular,
earnings `hours * rate`); both functions are total, so no error is raised for
unrecognized values. -/
theorem unrecognized_values_fallback (b v : ℚ) (t : String) (job : Job) (h : ℚ)
    (ht : t ≠ "percent") (hr : job.ot_rule ≠ "daily_8") :
    calc_differential b t v = v ∧
    calc_shift_earnings h job
      = (h * (job.base_rate + calc_differential job.base_rate job.diff_type job.diff_value),
         h, 0) :=
  ⟨by simp [calc_differential, ht], calc_shift_earnings_of_ne job h hr⟩

/-- Witness for C10 at a job whose rule and differential type are outside the
recognized enumerations. -/
theorem unrecognized_values_fallback_witness :
    ("night" : String) ≠ "percent" ∧ jbOdd.ot_rule ≠ "daily_8" ∧
    calc_differential 20 "night" 5 = 5 ∧
    calc_shift_earnings 10 jbOdd
      = (10 * (jbOdd.base_rate + calc_differential jbOdd.base_rate jbOdd.diff_type jbOdd.diff_value),
         10, 0) :=
  ⟨by decide, by decide,
   (unrecognized_values_fallback 20 5 "night" jbOdd 10 (by decide) (by decide)).1,
   (unrecognized_values_fallback 20 5 "night" jbOdd 10 (by decide) (by decide)).2⟩

end ShiftSavvy
